import Mathlib

/-!
Verification of the jarvis_rs voice assistant core against its specification.

The Rust sources are shallowly embedded: strings are `List Char` (all the
relevant processing in the source is over ASCII byte indices, which coincide
with character indices here), stateful I/O (process spawning, filesystem,
audio hardware, the status file) is abstracted into explicit environment
records of oracles, and fallible Rust code returning `anyhow::Result` is
embedded as `Except String`.  A Rust panic is represented by a dedicated
constructor/`Option.none` so that out-of-range slicing is observable.
-/

namespace Jarvis

set_option maxRecDepth 100000

/-- The opening-brace character (written via its code point). -/
def lbrace : Char := Char.ofNat 123

/-- The closing-brace character (written via its code point). -/
def rbrace : Char := Char.ofNat 125

/-- The backtick character (written via its code point). -/
def btick : Char := Char.ofNat 96

/-- The apostrophe character (written via its code point). -/
def apos : Char := Char.ofNat 39

/-- Rust `str::trim` (ASCII whitespace suffices for all inputs considered). -/
def trimChars (s : List Char) : List Char :=
  ((s.dropWhile Char.isWhitespace).reverse.dropWhile Char.isWhitespace).reverse

/-- Rust `str::trim_start`. -/
def trimStartChars (s : List Char) : List Char :=
  s.dropWhile Char.isWhitespace

/-- Boolean list-prefix test, mirroring Rust `str::starts_with`. -/
def isPrefixList (p s : List Char) : Bool :=
  p.isPrefixOf s

/-- Rust `str::find(pattern)`: index of the first occurrence of `pat` in `s`. -/
def findSub (pat : List Char) : List Char → Option Nat
  | [] => if pat = [] then some 0 else none
  | c :: rest =>
    if isPrefixList pat (c :: rest) then some 0
    else (findSub pat rest).map (· + 1)

/-- Rust `str::contains(pattern)` for a substring pattern. -/
def containsSub (pat s : List Char) : Bool :=
  (findSub pat s).isSome

/-- Accumulator pass for `split_whitespace`. -/
def splitWSAux : List Char → List Char → List (List Char)
  | [], acc => if acc = [] then [] else [acc.reverse]
  | c :: rest, acc =>
    if c.isWhitespace then
      if acc = [] then splitWSAux rest [] else acc.reverse :: splitWSAux rest []
    else splitWSAux rest (c :: acc)

/-- Rust `str::split_whitespace`. -/
def splitWSChars (s : List Char) : List (List Char) :=
  splitWSAux s []

/-- Split on newline characters (every newline produces a boundary). -/
def splitOnNl : List Char → List (List Char)
  | [] => [[]]
  | c :: rest =>
    if c = '\n' then [] :: splitOnNl rest
    else
      match splitOnNl rest with
      | l :: ls => (c :: l) :: ls
      | [] => [[c]]

/-- Rust `str::lines`: split on newline, drop a final empty segment produced
by a trailing newline, and strip one trailing carriage return per line. -/
def rustLines (s : List Char) : List (List Char) :=
  if s = [] then []
  else
    let parts := splitOnNl s
    let parts := if s.getLast? = some '\n' then parts.dropLast else parts
    parts.map (fun l => if l.getLast? = some '\r' then l.dropLast else l)

/-- Join tokens with single spaces, mirroring `Vec::join(" ")`. -/
def joinSpace (tokens : List (List Char)) : List Char :=
  (tokens.intersperse [' ']).flatten

/-- JSON values, covering the grammar fragment exercised by the program
(the `serde_json::Value` cases reachable from the tool-call objects:
null, booleans, integers, strings and objects; arrays, floats and exotic
escapes never occur in the inputs this development evaluates). -/
inductive Json where
  | null
  | bool (b : Bool)
  | num (n : Int)
  | str (s : List Char)
  | obj (fields : List (List Char × Json))

/-- Parse the remainder of a JSON string literal (the opening quote has
been consumed); supports the escapes `\"`, `\\` and `\n`. -/
def parseStrLit : List Char → Option (List Char × List Char)
  | [] => none
  | '"' :: rest => some ([], rest)
  | '\\' :: '"' :: rest => (parseStrLit rest).map (fun p => ('"' :: p.1, p.2))
  | '\\' :: '\\' :: rest => (parseStrLit rest).map (fun p => ('\\' :: p.1, p.2))
  | '\\' :: 'n' :: rest => (parseStrLit rest).map (fun p => ('\n' :: p.1, p.2))
  | '\\' :: _ :: _ => none
  | '\\' :: [] => none
  | c :: rest => (parseStrLit rest).map (fun p => (c :: p.1, p.2))

/-- Skip JSON whitespace. -/
def skipWS (s : List Char) : List Char :=
  s.dropWhile Char.isWhitespace

/-- Parse a JSON integer (optional minus sign followed by digits). -/
def parseNum (s : List Char) : Option (Int × List Char) :=
  let p : Bool × List Char := match s with
    | '-' :: r => (true, r)
    | _ => (false, s)
  let ds := p.2.takeWhile Char.isDigit
  if ds = [] then none
  else
    let n : Nat := ds.foldl (fun a c => a * 10 + (c.toNat - 48)) 0
    some (if p.1 then -(n : Int) else (n : Int), p.2.drop ds.length)

mutual

/-- Fuel-indexed recursive-descent parser for a JSON value. -/
def parseValue : Nat → List Char → Option (Json × List Char)
  | 0, _ => none
  | Nat.succ fuel, s =>
    match skipWS s with
    | [] => none
    | c :: rest =>
      if c = '"' then (parseStrLit rest).map (fun p => (.str p.1, p.2))
      else if c = lbrace then parseObjBody fuel rest
      else if isPrefixList "true".data (c :: rest) then some (.bool true, (c :: rest).drop 4)
      else if isPrefixList "false".data (c :: rest) then some (.bool false, (c :: rest).drop 5)
      else if isPrefixList "null".data (c :: rest) then some (.null, (c :: rest).drop 4)
      else (parseNum (c :: rest)).map (fun p => (.num p.1, p.2))

/-- Parse the body of a JSON object (after the opening brace). -/
def parseObjBody : Nat → List Char → Option (Json × List Char)
  | 0, _ => none
  | Nat.succ fuel, s =>
    match skipWS s with
    | c :: rest =>
      if c = rbrace then some (.obj [], rest)
      else (parseMembers fuel (c :: rest)).map (fun p => (.obj p.1, p.2))
    | [] => none

/-- Parse one or more `"key": value` members, ending at the closing brace. -/
def parseMembers : Nat → List Char → Option (List (List Char × Json) × List Char)
  | 0, _ => none
  | Nat.succ fuel, s =>
    match skipWS s with
    | '"' :: rest =>
      match parseStrLit rest with
      | none => none
      | some (key, r1) =>
        match skipWS r1 with
        | ':' :: r2 =>
          match parseValue fuel r2 with
          | none => none
          | some (v, r3) =>
            match skipWS r3 with
            | ',' :: r4 => (parseMembers fuel r4).map (fun p => ((key, v) :: p.1, p.2))
            | c :: r4 => if c = rbrace then some ([(key, v)], r4) else none
            | [] => none
        | _ => none
    | _ => none

end

/-- `serde_json::from_str::<Value>` on the grammar fragment above: parse a
single value and require only whitespace to remain. -/
def parseJson (s : List Char) : Option Json :=
  match parseValue (s.length + 1) s with
  | some (j, rest) => if skipWS rest = [] then some j else none
  | none => none

/-- Object field lookup (`Value::get`). -/
def getFieldAux (key : List Char) : List (List Char × Json) → Option Json
  | [] => none
  | (k, v) :: rest => if k = key then some v else getFieldAux key rest

/-- `Value::get(key)`: field lookup on objects, `none` elsewhere. -/
def Json.getField : Json → List Char → Option Json
  | .obj fs, key => getFieldAux key fs
  | _, _ => none

/-- `Value::as_str`. -/
def Json.asStr : Json → Option (List Char)
  | .str s => some s
  | _ => none

/-- The opening hidden-reasoning marker `<think>`. -/
def thinkOpenTag : List Char := "<think>".data

/-- The closing hidden-reasoning marker. -/
def thinkCloseTag : List Char := "</think>".data

/-- The hidden-reasoning strip from `Agent::handle_command` (agent.rs 84-104).
If both markers are found, the source slices `answer[start+7..end]` for the
side-channel text and keeps `answer[end+8..].trim_start()`.  The first slice
panics when `start + 7 > end` (Rust range with start past end), which this
embedding makes observable as `none`.  The side-channel write to
`~/.jarvis/jarvis.think` does not affect the returned text and is dropped. -/
def stripThink (answer : List Char) : Option (List Char) :=
  match findSub thinkOpenTag answer with
  | some start =>
    match findSub thinkCloseTag answer with
    | some e =>
      if start + thinkOpenTag.length ≤ e then
        some (trimStartChars (answer.drop (e + thinkCloseTag.length)))
      else none
    | none => some answer
  | none => some answer

/-- The fence marker (three backticks). -/
def fenceTag : List Char := [btick, btick, btick]

/-- One step of the fence-stripping fold over lines (agent.rs 111-127):
a line whose trimmed start begins with the fence marker toggles the
in-code flag and is dropped; lines inside a fence are dropped; other
lines are kept followed by a newline. -/
def fenceStep (acc : List Char × Bool) (line : List Char) : List Char × Bool :=
  if isPrefixList fenceTag (trimStartChars line) then (acc.1, !acc.2)
  else if acc.2 then acc
  else (acc.1 ++ line ++ ['\n'], acc.2)

/-- Markdown fence stripping (agent.rs 111-127), applied only when the
answer contains the fence marker. -/
def fenceStrip (answer : List Char) : List Char :=
  if containsSub fenceTag answer then
    trimChars ((rustLines answer).foldl fenceStep ([], false)).1
  else answer

/-- Inline-backtick removal (agent.rs 130-133). -/
def backtickStrip (answer : List Char) : List Char :=
  if answer.contains btick then answer.filter (fun c => c ≠ btick) else answer

/-- The literal key the extraction searches for: `"tool"` with quotes. -/
def toolKey : List Char := "\"tool\"".data

/-- Backward scan of agent.rs 143-148: the index of the nearest opening
brace strictly before position `start` (matched or not). -/
def braceBack (s : List Char) (start : Nat) : Option Nat :=
  match (s.take start).reverse.findIdx? (fun c => c = lbrace) with
  | some k => some (start - 1 - k)
  | none => none

/-- Forward depth-balanced scan of agent.rs 151-165: starting depth `count`,
return the offset of the closing brace that brings the count to zero. -/
def braceScanAux : List Char → Int → Nat → Option Nat
  | [], _, _ => none
  | c :: rest, count, i =>
    if c = lbrace then braceScanAux rest (count + 1) (i + 1)
    else if c = rbrace then
      if count - 1 = 0 then some i else braceScanAux rest (count - 1) (i + 1)
    else braceScanAux rest count (i + 1)

/-- Index (in `s`) of the brace matching the one at `startIdx`. -/
def braceEnd (s : List Char) (startIdx : Nat) : Option Nat :=
  (braceScanAux (s.drop startIdx) 0 0).map (· + startIdx)

/-- A parsed tool call: tool name plus its `command` argument. -/
structure ToolCall where
  name : List Char
  command : List Char
deriving DecidableEq, Repr

/-- Tool-call extraction from `Agent::handle_command` (agent.rs 140-210):
find the literal `"tool"` key, take the nearest opening brace before it,
depth-balance forward to the matching close, parse the slice as JSON, and
accept only a recognised tool name carrying a string `command` argument.
Every other situation falls through (`none`). -/
def extractTool (answer : List Char) : Option ToolCall :=
  match findSub toolKey answer with
  | none => none
  | some start =>
    match braceBack answer start with
    | none => none
    | some startIdx =>
      match braceEnd answer startIdx with
      | none => none
      | some endIdx =>
        let jsonSlice := (answer.drop startIdx).take (endIdx + 1 - startIdx)
        match parseJson jsonSlice with
        | none => none
        | some j =>
          match (j.getField "tool".data).bind Json.asStr with
          | none => none
          | some name =>
            if name = "shell_task".data ∨ name = "codex_cli_task".data then
              match ((j.getField "arguments".data).bind
                      (fun a => a.getField "command".data)).bind Json.asStr with
              | some cmd => some ⟨name, cmd⟩
              | none => none
            else none

/-- Modelled from the spec (§4.2 step 4 wording): backward scan from the
`"tool"` key to the nearest **unmatched** opening brace, tracking depth.
`idx` is the index of the head character of the (reversed) input. -/
def specBraceBackAux : List Char → Nat → Nat → Option Nat
  | [], _, _ => none
  | c :: rest, depth, idx =>
    if c = rbrace then specBraceBackAux rest (depth + 1) (idx - 1)
    else if c = lbrace then
      if depth = 0 then some idx else specBraceBackAux rest (depth - 1) (idx - 1)
    else specBraceBackAux rest depth (idx - 1)

/-- Modelled from the spec: nearest unmatched opening brace before `start`. -/
def specBraceBack (s : List Char) (start : Nat) : Option Nat :=
  specBraceBackAux (s.take start).reverse 0 (start - 1)

/-- Modelled from the spec: the extraction as §4.2 step 4 words it, i.e.
`extractTool` with the backward scan stopping at the nearest *unmatched*
opening brace instead of the nearest opening brace. -/
def specExtractTool (answer : List Char) : Option ToolCall :=
  match findSub toolKey answer with
  | none => none
  | some start =>
    match specBraceBack answer start with
    | none => none
    | some startIdx =>
      match braceEnd answer startIdx with
      | none => none
      | some endIdx =>
        let jsonSlice := (answer.drop startIdx).take (endIdx + 1 - startIdx)
        match parseJson jsonSlice with
        | none => none
        | some j =>
          match (j.getField "tool".data).bind Json.asStr with
          | none => none
          | some name =>
            if name = "shell_task".data ∨ name = "codex_cli_task".data then
              match ((j.getField "arguments".data).bind
                      (fun a => a.getField "command".data)).bind Json.asStr with
              | some cmd => some ⟨name, cmd⟩
              | none => none
            else none

/-- The fixed clarification message substituted for over-long replies
(agent.rs 221). -/
def clarifyMsg : List Char :=
  "I".data ++ [apos] ++ "m sorry, I didn".data ++ [apos] ++
    "t quite understand. Please try again with a simpler command.".data

/-- The fixed message substituted for an empty reply (agent.rs 228). -/
def didntCatchMsg : List Char :=
  "I didn".data ++ [apos] ++ "t catch that. Could you repeat your command?".data

/-- Outcome of the response-parsing pipeline: a Rust panic, a recognised
tool call, or a final string to speak. -/
inductive Parsed where
  | panicked
  | tool (tc : ToolCall)
  | speak (text : List Char)
deriving DecidableEq, Repr

/-- The character ceiling of the length guard (agent.rs 217). -/
def maxChars : Nat := 300

/-- The word ceiling of the length guard (agent.rs 218). -/
def maxWords : Nat := 50

/-- The response-parsing pipeline of `Agent::handle_command` (agent.rs
76-230), from the raw model reply up to (but not including) tool
execution: trim, hidden-reasoning strip (which can panic), fence strip,
backtick removal, tool extraction, length guard, empty guard. -/
def parseReply (raw : List Char) : Parsed :=
  let answer := trimChars raw
  match stripThink answer with
  | none => .panicked
  | some answer =>
    let answer := fenceStrip answer
    let answer := backtickStrip answer
    match extractTool answer with
    | some tc => .tool tc
    | none =>
      if answer.length > maxChars ∨ (splitWSChars answer).length > maxWords then
        .speak clarifyMsg
      else if trimChars answer = [] then .speak didntCatchMsg
      else .speak answer

/-- Captured output of a finished child process, together with the wall
clock it consumed.  `exitCode` is `ExitStatus::code()` (absent when the
process died from a signal); `success` is `ExitStatus::success()`. -/
structure ProcResult where
  success : Bool
  exitCode : Option Int
  stdout : List Char
  stderr : List Char
  durationMs : Nat
deriving DecidableEq, Repr

/-- The environment a tool invocation runs against.  `workingDirectory` is
the (pre-trimmed) result of `JarvisIO::read_working_directory`;
`currentDir` is `std::env::current_dir()`; `canonicalize` is
`std::fs::canonicalize`; `isDir` is `Path::is_dir`; `runShell cmd cwd`
abstracts spawning `sh -c cmd` in directory `cwd` and collecting its
output — an `Except.error` is a spawn (or wait) failure. -/
structure ToolEnv where
  workingDirectory : Option (List Char)
  currentDir : Except String (List Char)
  canonicalize : List Char → Except String (List Char)
  isDir : List Char → Bool
  runShell : List Char → Option (List Char) → Except String ProcResult

/-- Result of `run_shell_task`: the user-facing message plus the working
directory persisted by a `cd` command, when one was written. -/
structure ShellResult where
  message : List Char
  newWorkingDir : Option (List Char)
deriving DecidableEq, Repr

/-- Unix `Path::is_absolute`. -/
def isAbsolutePath (p : List Char) : Bool :=
  match p with
  | '/' :: _ => true
  | _ => false

/-- `PathBuf::join` for the relative-argument case reached in the source. -/
def joinPath (base arg : List Char) : List Char :=
  base ++ '/' :: arg

/-- Digits of an exit code (`format!` of an `i32`). -/
def intChars (n : Int) : List Char :=
  (toString n).data

/-- `tools::run_shell_task` (tools.rs 19-77).  The `cd` pseudo-command
updates the persisted working directory; `?` on `current_dir`,
`canonicalize` and `Command::output` propagates those failures as
`Except.error`.  Note the spawned command is waited on with no timeout. -/
def runShellTask (command : List Char) (env : ToolEnv) : Except String ShellResult :=
  let trimmed := trimChars command
  if trimmed = [] then .ok ⟨"No command provided.".data, none⟩
  else if isPrefixList "cd ".data trimmed then
    let arg := trimmed.drop 3
    let targetE : Except String (List Char) :=
      if isAbsolutePath arg then .ok arg
      else
        match env.workingDirectory with
        | some cwd => .ok (joinPath cwd arg)
        | none =>
          match env.currentDir with
          | .error e => .error e
          | .ok cur => .ok (joinPath cur arg)
    match targetE with
    | .error e => .error e
    | .ok target =>
      match env.canonicalize target with
      | .error _ => .error "failed to change directory"
      | .ok newDir =>
        if env.isDir newDir then
          .ok ⟨"Changed directory to ".data ++ newDir, some newDir⟩
        else
          .ok ⟨"Directory not found: ".data ++ newDir, none⟩
  else
    match env.runShell trimmed env.workingDirectory with
    | .error _ => .error "failed to execute shell command"
    | .ok out =>
      let stdout := trimChars out.stdout
      let stderr := trimChars out.stderr
      if !out.success then
        let code := out.exitCode.getD (-1)
        if stderr ≠ [] then
          .ok ⟨"Command exited with ".data ++ intChars code ++ ": ".data ++ stderr, none⟩
        else
          .ok ⟨"Command exited with ".data ++ intChars code ++
                " and produced no output.".data, none⟩
      else if stdout ≠ [] then .ok ⟨stdout, none⟩
      else if stderr ≠ [] then .ok ⟨stderr, none⟩
      else .ok ⟨"Command ran successfully with no output.".data, none⟩

/-- Escape double quotes as in tools.rs 94. -/
def escapeQuotes (s : List Char) : List Char :=
  s.flatMap (fun c => if c = '"' then ['\\', '"'] else [c])

/-- The full shell command built for the Codex CLI (tools.rs 95-98). -/
def codexFullCmd (trimmed : List Char) : List Char :=
  "codex --dangerously-bypass-approvals-and-sandbox \"".data ++
    escapeQuotes trimmed ++ ['"']

/-- The Codex CLI timeout in milliseconds (tools.rs 132: 60 seconds). -/
def codexTimeoutMs : Nat := 60000

/-- The fixed timed-out message (tools.rs 167). -/
def codexTimedOutMsg : List Char :=
  "Codex CLI timed out. Please try again with a simpler or more specific instruction.".data

/-- `tools::run_codex_cli` (tools.rs 85-170): spawn the CLI through the
shell (spawn failure propagates via `?`), wait with a 60-second timeout;
if the process exceeds the timeout it is killed and the fixed timed-out
message is returned, otherwise its output is formatted as for the shell
task. -/
def runCodexCli (instruction : List Char) (env : ToolEnv) : Except String (List Char) :=
  let trimmed := trimChars instruction
  if trimmed = [] then .ok "No Codex instruction provided.".data
  else
    match env.runShell (codexFullCmd trimmed) env.workingDirectory with
    | .error _ => .error "failed to spawn codex CLI"
    | .ok out =>
      if out.durationMs ≤ codexTimeoutMs then
        let stdout := trimChars out.stdout
        let stderr := trimChars out.stderr
        if !out.success then
          let code := out.exitCode.getD (-1)
          if stderr ≠ [] then
            .ok ("Codex CLI exited with ".data ++ intChars code ++ ": ".data ++ stderr)
          else
            .ok ("Codex CLI exited with ".data ++ intChars code ++
                  " and produced no output.".data)
        else if stdout ≠ [] then .ok stdout
        else if stderr ≠ [] then .ok stderr
        else .ok "Codex ran successfully with no output.".data
      else .ok codexTimedOutMsg

/-- The simple shell verbs redirected away from the Codex CLI
(agent.rs 189). -/
def simpleShells : List (List Char) :=
  ["date".data, "ls".data, "pwd".data, "cat".data, "find".data, "uptime".data]

/-- ASCII lowering of a command (Rust `str::to_lowercase` on the inputs
considered). -/
def lowerChars (s : List Char) : List Char :=
  s.map Char.toLower

/-- The redirect test of agent.rs 188-190: the instruction is, or starts
with (followed by a space), one of the simple shell verbs. -/
def isSimpleShell (command : List Char) : Bool :=
  let cmdLower := lowerChars (trimChars command)
  simpleShells.any (fun c => cmdLower = c ∨ isPrefixList (c ++ [' ']) cmdLower)

/-- The tool router (spec §4.4 `dispatch`), as `Agent::handle_command`
implements it (agent.rs 172-201): `shell_task` runs the shell tool;
`codex_cli_task` is redirected to the shell tool for simple shell verbs
and otherwise runs the Codex CLI.  The `?` operators in the source
propagate tool errors, embedded here as `Except.error`. -/
def dispatch (tc : ToolCall) (env : ToolEnv) : Except String (List Char) :=
  if tc.name = "shell_task".data then
    (runShellTask tc.command env).map ShellResult.message
  else if isSimpleShell tc.command then
    (runShellTask tc.command env).map ShellResult.message
  else
    runCodexCli tc.command env

/-- Result of one `handle_command` turn after the raw reply is in hand:
a panic, a propagated error, or the string handed onward for speaking. -/
inductive HandleResult where
  | panicked
  | err (e : String)
  | ok (s : List Char)
deriving DecidableEq, Repr

/-- `Agent::handle_command` from the point the raw model reply has been
received (the Ollama call and its 15-second timeout are external): parse
the reply and run a recognised tool call, otherwise return the spoken
text. -/
def handleReply (raw : List Char) (env : ToolEnv) : HandleResult :=
  match parseReply raw with
  | .panicked => .panicked
  | .tool tc =>
    match dispatch tc env with
    | .error e => .err e
    | .ok s => .ok s
  | .speak s => .ok s

/-- One chunk of mono samples handed over the channel by the audio
callback: its arrival time (milliseconds after capture start) and its
samples (`i16` values embedded as `Int`). -/
structure Chunk where
  arrival : Nat
  samples : List Int
deriving DecidableEq, Repr

/-- `i16::wrapping_abs`: the absolute value, except that the most negative
value maps to itself (and therefore never exceeds a positive threshold). -/
def wrapAbs (s : Int) : Int :=
  if s = -32768 then s else (s.natAbs : Int)

/-- The fixed amplitude threshold (speech.rs 223). -/
def silenceThreshold : Int := 500

/-- The silence timeout in milliseconds (speech.rs 224). -/
def silenceTimeoutMs : Nat := 800

/-- The minimum capture time in milliseconds (speech.rs 225). -/
def minCaptureMs : Nat := 1000

/-- The speech test of speech.rs 241: some sample of the chunk exceeds the
threshold under `wrapping_abs`. -/
def chunkHasSpeech (samples : List Int) : Bool :=
  samples.any (fun s => wrapAbs s > silenceThreshold)

/-- What `listen_for_phrase` returns in this model: the buffered samples
and the time at which the capture loop exits. -/
structure CaptureOut where
  samples : List Int
  returnTime : Nat
deriving DecidableEq, Repr

/-- The consumer loop of `SpeechRecognizer::listen_for_phrase`
(speech.rs 231-263), with time discrete in milliseconds and the channel
modelled by the chronologically ordered list of pending chunks.  At the
loop head the elapsed time is checked against `duration`;
`recv_timeout(duration - elapsed)` yields the next chunk when it arrives
by the deadline (at time `max now arrival`, immediately for an
already-queued chunk) and times out at `duration` otherwise.  A received
chunk is appended to the buffer, speech detection updates
`speechStarted`/`lastSpeech`, and capture breaks early when speech has
started, more than `min_capture_time` has elapsed and more than
`silence_timeout` has passed since the last speech. -/
def captureLoop (duration : Nat) :
    List Chunk → Nat → List Int → Bool → Nat → CaptureOut
  | [], now, acc, _, _ =>
    if now < duration then ⟨acc, duration⟩ else ⟨acc, now⟩
  | ch :: rest, now, acc, started, lastSpeech =>
    if now < duration then
      if ch.arrival ≤ duration then
        let t := max now ch.arrival
        let acc2 := acc ++ ch.samples
        let hasSpeech := chunkHasSpeech ch.samples
        let started2 := started || hasSpeech
        let lastSpeech2 := if hasSpeech then t else lastSpeech
        if started2 = true ∧ t > minCaptureMs ∧ t - lastSpeech2 > silenceTimeoutMs then
          ⟨acc2, t⟩
        else captureLoop duration rest t acc2 started2 lastSpeech2
      else ⟨acc, duration⟩
    else ⟨acc, now⟩

/-- `listen_for_phrase` viewed from the capture side: run the consumer
loop from time zero with an empty buffer (`last_speech` is initialised to
the start instant, speech.rs 226-227). -/
def listenForPhrase (duration : Nat) (chunks : List Chunk) : CaptureOut :=
  captureLoop duration chunks 0 [] false 0

/-- The transcription step (speech.rs 271-280): a non-empty buffer is fed
to the recognition engine `g` (an external collaborator); an empty buffer
yields the empty transcript. -/
def transcriptOf (g : List Int → List Char) (out : CaptureOut) : List Char :=
  if out.samples = [] then [] else g out.samples

/-- The noise-word list of main.rs 57. -/
def noiseWords : List (List Char) :=
  ["the".data, "uh".data, "um".data, "a".data]

/-- A token matching the noise list case-insensitively (main.rs 65). -/
def isNoise (t : List Char) : Bool :=
  noiseWords.contains (lowerChars t)

/-- `strip_noise_words` (main.rs 60-77): split on whitespace, drop noise
tokens from the front, then from the back, and re-join with spaces. -/
def stripNoiseWords (text : List Char) : List Char :=
  let tokens := splitWSChars text
  let tokens := tokens.dropWhile isNoise
  let tokens := (tokens.reverse.dropWhile isNoise).reverse
  joinSpace tokens

/-- The idle-mode wake test (main.rs 152-170): a transition to listening
happens exactly when the trimmed transcript is non-empty, still non-empty
after noise stripping, and then contains the trigger word
case-insensitively. -/
def idleWakes (transcript trigger : List Char) : Bool :=
  let trimmed := trimChars transcript
  if trimmed = [] then false
  else
    let cleaned := stripNoiseWords trimmed
    if cleaned = [] then false
    else containsSub (lowerChars trigger) (lowerChars cleaned)

/-- The cancellation polling period in milliseconds (main.rs 244). -/
def pollMs : Nat := 200

/-- The settle delay after a cancelled playback (main.rs 267). -/
def settleMs : Nat := 500

/-- Whether the external cancellation signal (a `canceled` status write,
performed at time `c` when `cancelSetAt = some c`) is visible at `tick`. -/
def cancelObserved (cancelSetAt : Option Nat) (tick : Nat) : Bool :=
  match cancelSetAt with
  | some c => decide (c ≤ tick)
  | none => false

/-- Whether the select loop ended by cancellation, and when it exited. -/
structure RaceOut where
  canceled : Bool
  exitTime : Nat
deriving DecidableEq, Repr

/-- The `tokio::select!` loop of main.rs 245-261, discretised: the
interval ticks at 0, 200, 400, … ms (a tokio interval fires immediately);
playback resolves at `T`.  At each tick time, if playback has already
completed the loop exits normally at `T` (completion wins ties);
otherwise the tick fires and the status file is polled — if the
cancellation signal is visible the loop exits cancelled at that tick. -/
def raceLoop (T : Nat) (cancelSetAt : Option Nat) : Nat → Nat → RaceOut
  | 0, _ => ⟨false, T⟩
  | Nat.succ fuel, tick =>
    if T ≤ tick then ⟨false, T⟩
    else if cancelObserved cancelSetAt tick then ⟨true, tick⟩
    else raceLoop T cancelSetAt fuel (tick + pollMs)

/-- The race between playback completion (at `T` ms) and cancellation
polling, with enough fuel for every tick up to `T`. -/
def speakRace (T : Nat) (cancelSetAt : Option Nat) : RaceOut :=
  raceLoop T cancelSetAt (T / pollMs + 2) 0

/-- The observable effect of one pass through the speaking stage of the
orchestrator loop. -/
structure SpeakStage where
  statuses : List String
  stopCalled : Bool
  doneTime : Nat
deriving DecidableEq, Repr

/-- The speaking stage of main.rs 236-269: write `speaking`, race playback
against cancellation polling; on cancellation stop playback, write
`canceled`, observe the 500 ms settle delay; in either case finish by
writing `listening`. -/
def speakingStage (T : Nat) (cancelSetAt : Option Nat) : SpeakStage :=
  let r := speakRace T cancelSetAt
  if r.canceled then
    ⟨["speaking", "canceled", "listening"], true, r.exitTime + settleMs⟩
  else
    ⟨["speaking", "listening"], false, r.exitTime⟩

/-- The first polling tick at which a signal set at time `c` is observed:
the least multiple of the polling period that is at least `c`. -/
def obsTick (c : Nat) : Nat :=
  pollMs * ((c + (pollMs - 1)) / pollMs)

/-- The embedded tool JSON from the spec round-trip example. -/
def toolJson : List Char :=
  [lbrace] ++ "\"tool\":\"shell_task\",\"arguments\":".data ++
    [lbrace] ++ "\"command\":\"ls\"".data ++ [rbrace, rbrace]

/-- A reply embedding the tool JSON after reasoning text containing
unrelated balanced brace pairs (the spec round-trip example). -/
def c3good : List Char :=
  "Some reasoning ".data ++ [lbrace] ++ "x".data ++ [rbrace] ++ " more ".data ++
    [lbrace] ++ "y".data ++ [rbrace] ++ " then: ".data ++ toolJson ++ " tail.".data

/-- A reply whose tool object contains a matched inner brace pair between
its own opening brace and the `"tool"` key:
the JSON object `(a: (b: 1), tool: shell_task, arguments: (command: ls))`. -/
def c3cx : List Char :=
  [lbrace] ++ "\"a\":".data ++ [lbrace] ++ "\"b\":1".data ++ [rbrace] ++
    ",\"tool\":\"shell_task\",\"arguments\":".data ++
    [lbrace] ++ "\"command\":\"ls\"".data ++ [rbrace, rbrace]

/-- A well-formed tool object naming an unrecognised tool. -/
def c3unknown : List Char :=
  [lbrace] ++ "\"tool\":\"frob\",\"arguments\":".data ++
    [lbrace] ++ "\"command\":\"ls\"".data ++ [rbrace, rbrace]

/-- A raw reply whose closing reasoning marker precedes its opening one. -/
def c5input : List Char := "</think>x<think>".data

/-- A raw reply ending in a backtick: removal exposes trailing whitespace. -/
def c8raw : List Char := "hi ".data ++ [btick]

/-- A tool environment in which the shell cannot be spawned and path
canonicalisation fails, but a working directory is persisted. -/
def failEnv : ToolEnv where
  workingDirectory := some "/base".data
  currentDir := .error "no current dir"
  canonicalize := fun _ => .error "canonicalize failed"
  isDir := fun _ => false
  runShell := fun _ _ => .error "spawn failed"

/-- Output of a healthy process that ran for 10^9 ms (far beyond every
timeout in the program) and printed `hi`. -/
def slowOutput : ProcResult where
  success := true
  exitCode := some 0
  stdout := "hi".data
  stderr := []
  durationMs := 1000000000

/-- An environment whose every spawned process is `slowOutput`. -/
def slowEnv : ToolEnv where
  workingDirectory := none
  currentDir := .error "no current dir"
  canonicalize := fun _ => .error "canonicalize failed"
  isDir := fun _ => false
  runShell := fun _ _ => .ok slowOutput

/-- Output of a process that exceeded the Codex timeout (70 s). -/
def codexSlowOutput : ProcResult where
  success := true
  exitCode := some 0
  stdout := "done".data
  stderr := []
  durationMs := 70000

/-- An environment whose every spawned process is `codexSlowOutput`. -/
def codexSlowEnv : ToolEnv where
  workingDirectory := none
  currentDir := .error "no current dir"
  canonicalize := fun _ => .error "canonicalize failed"
  isDir := fun _ => false
  runShell := fun _ _ => .ok codexSlowOutput

/-- An environment in which every external operation succeeds. -/
def goodEnv : ToolEnv where
  workingDirectory := none
  currentDir := .ok "/home".data
  canonicalize := fun p => .ok p
  isDir := fun _ => true
  runShell := fun _ _ => .ok ⟨true, some 0, "ok".data, [], 10⟩

/-- A chunk of sub-threshold audio arriving 100 ms in. -/
def quietChunk : Chunk := ⟨100, [100]⟩

/-- A chunk containing a speech-level sample arriving 1500 ms in. -/
def speechChunk : Chunk := ⟨1500, [600]⟩

/-- C5: a raw reply in which the closing reasoning marker occurs (at
index 0) before the opening marker (at index 9) makes the
hidden-reasoning extraction slice `answer[start+7..end]` with start index
past end index, i.e. the parse pipeline panics instead of producing a
Speak or Tool outcome. -/
theorem c5_think_order_panics :
    findSub thinkCloseTag c5input = some 0 ∧
    findSub thinkOpenTag c5input = some 9 ∧
    parseReply c5input = .panicked :=
  ⟨rfl, rfl, rfl⟩

/-- C3 counterexample: on the reply
`(a: (b: 1), tool: shell_task, arguments: (command: ls))` the backward
scan described by the spec (nearest *unmatched* opening brace) extracts
the full object and yields the shell_task ToolCall, but the code scans to
the nearest opening brace (the matched inner one), parses `(b: 1)`,
finds no tool key, and falls through to speaking the text. -/
theorem c3_counterexample :
    specExtractTool c3cx = some ⟨"shell_task".data, "ls".data⟩ ∧
    extractTool c3cx = none ∧
    parseReply c3cx = .speak c3cx :=
  ⟨rfl, rfl, rfl⟩

/-- C3 amended: extraction scans backward to the nearest opening brace
(matched or not); on the spec round-trip example, where the tool object's
own brace immediately precedes the `"tool"` key, this finds the embedded
object despite earlier balanced brace pairs and yields exactly the
shell_task/ls ToolCall, and an unrecognised tool name falls through to
speaking the cleaned text. -/
theorem c3_amended_nearest_brace :
    extractTool c3good = some ⟨"shell_task".data, "ls".data⟩ ∧
    parseReply c3good = .tool ⟨"shell_task".data, "ls".data⟩ ∧
    parseReply c3unknown = .speak c3unknown :=
  ⟨rfl, rfl, rfl⟩

/-- C8 counterexample: parsing `hi `+backtick yields the spoken string
`hi ` (backtick removal exposes a trailing space that is never
re-trimmed), and re-running the pipeline on `hi ` yields `hi`, a
different string — parse is not idempotent on its own Speak output. -/
theorem c8_counterexample :
    parseReply c8raw = .speak "hi ".data ∧
    parseReply "hi ".data = .speak "hi".data ∧
    "hi ".data ≠ "hi".data :=
  ⟨rfl, rfl, by decide⟩

/-- C1 counterexample: in an environment where the shell cannot be
spawned, dispatching the shell_task `ls` propagates the spawn failure as
an error (the `?` of tools.rs 56 via agent.rs 177); and dispatching
`cd base` when canonicalisation fails propagates that failure as an
error (the `?` of tools.rs 35-36) — neither is converted into a result
string. -/
theorem c1_counterexample :
    dispatch ⟨"shell_task".data, "ls".data⟩ failEnv =
      .error "failed to execute shell command" ∧
    dispatch ⟨"shell_task".data, "cd base".data⟩ failEnv =
      .error "failed to change directory" :=
  ⟨rfl, rfl⟩

/-- C2 counterexample: a shell_task process that ran for 10^9 ms (beyond
the program's only timeout constant, 60 s) still has its stdout returned
as the result — the shell-execution path waits without any timeout and
never substitutes a timed-out message. -/
theorem c2_counterexample :
    slowOutput.durationMs > codexTimeoutMs ∧
    runShellTask "ls".data slowEnv = .ok ⟨"hi".data, none⟩ ∧
    "hi".data ≠ codexTimedOutMsg :=
  ⟨by decide, rfl, by decide⟩

/-- C4 counterexample: a capture receiving one sub-threshold chunk
(sample 100, below the threshold 500) returns at `max_duration` with a
*non-empty* buffer (all received samples are kept regardless of the
threshold), and the downstream transcript is whatever the recognition
engine returns on that buffer — not necessarily empty. -/
theorem c4_counterexample :
    chunkHasSpeech quietChunk.samples = false ∧
    listenForPhrase 5000 [quietChunk] = ⟨[100], 5000⟩ ∧
    ([100] : List Int) ≠ [] ∧
    transcriptOf (fun _ => "uh".data) (listenForPhrase 5000 [quietChunk]) = "uh".data :=
  ⟨rfl, rfl, by decide, rfl⟩

/-- C9 counterexample: speech is detected at 1500 ms and is followed by
8500 ms of silence (far more than `silence_timeout` after
`min_capture_time`), yet — because the early-stop test only runs when a
chunk arrives, and no further chunk arrives — capture returns at exactly
`max_duration` (10000 ms), not strictly before it. -/
theorem c9_counterexample :
    chunkHasSpeech speechChunk.samples = true ∧
    listenForPhrase 10000 [speechChunk] = ⟨[600], 10000⟩ ∧
    ¬ (10000 : Nat) < 10000 :=
  ⟨rfl, rfl, by omega⟩

/-- C10: noise stripping removes tokens only from the ends — for every
transcript the token list decomposes as an all-noise prefix, the kept
contiguous interior (which stripping returns rejoined, unchanged), and an
all-noise suffix; concretely, `the jarvis` strips to `jarvis` and wakes
the idle state, while `the` alone strips to empty and never triggers the
Idle-to-Listening transition. -/
theorem c10_noise_strip_ends_only :
    (∀ text : List Char,
      ∃ pre kept suf,
        splitWSChars text = pre ++ kept ++ suf ∧
        (∀ t ∈ pre, isNoise t = true) ∧
        (∀ t ∈ suf, isNoise t = true) ∧
        stripNoiseWords text = joinSpace kept) ∧
    stripNoiseWords "the jarvis".data = "jarvis".data ∧
    idleWakes "the jarvis".data "jarvis".data = true ∧
    stripNoiseWords "the".data = [] ∧
    idleWakes "the".data "jarvis".data = false := by
  refine ⟨?_, rfl, rfl, rfl, rfl⟩
  intro text
  refine ⟨(splitWSChars text).takeWhile isNoise,
    (((splitWSChars text).dropWhile isNoise).reverse.dropWhile isNoise).reverse,
    (((splitWSChars text).dropWhile isNoise).reverse.takeWhile isNoise).reverse,
    ?_, ?_, ?_, rfl⟩
  · have h2 : ∀ l : List (List Char),
        l = (l.reverse.dropWhile isNoise).reverse ++ (l.reverse.takeWhile isNoise).reverse := by
      intro l
      conv_lhs => rw [← List.reverse_reverse l]
      rw [← List.reverse_append, List.takeWhile_append_dropWhile]
    conv_lhs => rw [← List.takeWhile_append_dropWhile (p := isNoise) (l := splitWSChars text),
      h2 ((splitWSChars text).dropWhile isNoise)]
    rw [List.append_assoc]
  · intro t ht
    exact List.mem_takeWhile_imp ht
  · intro t ht
    rw [List.mem_reverse] at ht
    exact List.mem_takeWhile_imp ht

/-- With only sub-threshold chunks that all arrive strictly inside the
window, the consumer loop never breaks early: every chunk is buffered and
the loop runs until `duration`. -/
theorem captureLoop_quiet (duration : Nat) :
    ∀ (chunks : List Chunk) (now : Nat) (acc : List Int) (ls : Nat),
      (∀ ch ∈ chunks, chunkHasSpeech ch.samples = false) →
      (∀ ch ∈ chunks, ch.arrival < duration) →
      now < duration →
      captureLoop duration chunks now acc false ls =
        ⟨acc ++ chunks.flatMap Chunk.samples, duration⟩ := by
  intro chunks
  induction chunks with
  | nil =>
    intro now acc ls _ _ hnow
    simp [captureLoop, hnow]
  | cons ch rest ih =>
    intro now acc ls hq ha hnow
    have hq0 : chunkHasSpeech ch.samples = false := hq ch (by simp)
    have ha0 : ch.arrival < duration := ha ch (by simp)
    have hmax : max now ch.arrival < duration := Nat.max_lt.mpr ⟨hnow, ha0⟩
    unfold captureLoop
    rw [if_pos hnow, if_pos (Nat.le_of_lt ha0)]
    simp only [hq0, Bool.or_false, if_neg (by simp : ¬ (false : Bool) = true)]
    rw [if_neg (by simp)]
    rw [ih (max now ch.arrival) (acc ++ ch.samples) ls
      (fun c hc => hq c (by simp [hc])) (fun c hc => ha c (by simp [hc])) hmax]
    simp [List.append_assoc]

/-- C4 amended: a capture in which no received sample crosses the silence
threshold does return within (indeed exactly at) `max_duration`, but the
returned buffer is *not* empty in general: it holds the samples of every
received chunk, so it is empty only when no chunk arrived; the downstream
transcript is whatever the recognition engine returns on that buffer
(empty only for the empty buffer). -/
theorem c4_amended_quiet_capture (duration : Nat) (chunks : List Chunk)
    (g : List Int → List Char)
    (hq : ∀ ch ∈ chunks, chunkHasSpeech ch.samples = false)
    (ha : ∀ ch ∈ chunks, ch.arrival < duration) :
    listenForPhrase duration chunks = ⟨chunks.flatMap Chunk.samples, duration⟩ ∧
    (listenForPhrase duration chunks).returnTime ≤ duration ∧
    transcriptOf g (listenForPhrase duration chunks) =
      (if chunks.flatMap Chunk.samples = [] then [] else g (chunks.flatMap Chunk.samples)) := by
  have h : listenForPhrase duration chunks = ⟨chunks.flatMap Chunk.samples, duration⟩ := by
    rcases Nat.eq_zero_or_pos duration with h0 | hpos
    · subst h0
      have hnil : chunks = [] := by
        cases chunks with
        | nil => rfl
        | cons c rest => exact absurd (ha c (by simp)) (by omega)
      subst hnil
      simp [listenForPhrase, captureLoop]
    · simpa [listenForPhrase] using
        captureLoop_quiet duration chunks 0 [] 0 hq ha hpos
  refine ⟨h, ?_, ?_⟩
  · rw [h]
  · rw [h, transcriptOf]

/-- C4 witness: a 3000 ms capture receiving one quiet chunk at 50 ms. -/
theorem c4_amended_quiet_capture_witness :
    listenForPhrase 3000 [⟨50, [7, -3]⟩] = ⟨[7, -3], 3000⟩ ∧
    (listenForPhrase 3000 [⟨50, [7, -3]⟩]).returnTime ≤ 3000 ∧
    transcriptOf (fun _ => "x".data) (listenForPhrase 3000 [⟨50, [7, -3]⟩]) =
      (if ([⟨50, [7, -3]⟩] : List Chunk).flatMap Chunk.samples = [] then []
       else "x".data) := by
  have := c4_amended_quiet_capture 3000 [⟨50, [7, -3]⟩] (fun _ => "x".data)
    (by decide) (by decide)
  simpa using this

/-- C9 amended: the early-stop test only runs when a chunk arrives, and
uses strict comparisons.  (1) If speech arrives at `t0` and a further
(quiet) chunk arrives at `u`, strictly after `min_capture_time`, strictly
more than `silence_timeout` after the speech, and strictly before
`max_duration`, then capture stops early at `u` — strictly before
`max_duration`.  (2) If no further chunk arrives after the speech, capture
returns exactly at `max_duration`, however long the silence. -/
theorem c9_amended_early_stop :
    (∀ (duration t0 u : Nat) (s0 s1 : List Int),
      chunkHasSpeech s0 = true → chunkHasSpeech s1 = false →
      t0 ≤ u → u < duration → minCaptureMs < u → silenceTimeoutMs < u - t0 →
      listenForPhrase duration [⟨t0, s0⟩, ⟨u, s1⟩] = ⟨s0 ++ s1, u⟩) ∧
    (∀ (duration t0 : Nat) (s0 : List Int),
      chunkHasSpeech s0 = true → t0 < duration →
      listenForPhrase duration [⟨t0, s0⟩] = ⟨s0, duration⟩) := by
  constructor
  · intro duration t0 u s0 s1 h0 h1 htu hud hmin hsil
    have ht0d : t0 < duration := lt_of_le_of_lt htu hud
    have hm0 : max 0 t0 = t0 := Nat.max_eq_right (Nat.zero_le t0)
    have hmu : max t0 u = u := Nat.max_eq_right htu
    unfold listenForPhrase captureLoop
    rw [if_pos (show (0 : Nat) < duration by omega)]
    rw [if_pos (show t0 ≤ duration by omega)]
    simp only [h0, hm0, Bool.or_true]
    rw [if_neg (by rintro ⟨-, -, hbad⟩; simp [minCaptureMs, silenceTimeoutMs] at hbad)]
    unfold captureLoop
    rw [if_pos (show t0 < duration by omega)]
    rw [if_pos (show u ≤ duration by omega)]
    simp only [h1, hmu, Bool.or_false, Bool.false_eq_true, if_false, if_true]
    rw [if_pos ⟨trivial, hmin, hsil⟩]
    simp
  · intro duration t0 s0 h0 ht0d
    have hm0 : max 0 t0 = t0 := Nat.max_eq_right (Nat.zero_le t0)
    unfold listenForPhrase captureLoop
    rw [if_pos (show (0 : Nat) < duration by omega)]
    rw [if_pos (show t0 ≤ duration by omega)]
    simp only [h0, hm0, Bool.or_true]
    rw [if_neg (by rintro ⟨-, -, hbad⟩; simp [minCaptureMs, silenceTimeoutMs] at hbad)]
    unfold captureLoop
    rw [if_pos ht0d]
    simp

/-- C9 witness: speech at 1500 ms, a quiet chunk at 2500 ms, 10 s window:
capture stops at 2500 ms. -/
theorem c9_amended_early_stop_witness :
    listenForPhrase 10000 [⟨1500, [600]⟩, ⟨2500, [0]⟩] = ⟨[600] ++ [0], 2500⟩ :=
  c9_amended_early_stop.1 10000 1500 2500 [600] [0] (by decide) (by decide)
    (by omega) (by omega) (by decide) (by decide)

/-- With no cancellation signal the select loop always ends by playback
completion at `T` (the fuel-exhaustion fallback coincides with this
result, so no fuel bound is needed). -/
theorem raceLoop_none (T : Nat) :
    ∀ (fuel tick : Nat), raceLoop T none fuel tick = ⟨false, T⟩ := by
  intro fuel
  induction fuel with
  | zero => intro tick; rfl
  | succ n ih =>
    intro tick
    unfold raceLoop
    by_cases hT : T ≤ tick
    · rw [if_pos hT]
    · rw [if_neg hT]
      simp only [cancelObserved, Bool.false_eq_true, if_false]
      exact ih (tick + pollMs)

/-- If the signal set at `c` becomes observable (at tick `obsTick c`)
strictly before playback completes, the select loop exits cancelled at
exactly that tick. -/
theorem raceLoop_cancel (T c : Nat) (h : obsTick c < T) :
    ∀ (fuel tick : Nat), tick % pollMs = 0 → tick ≤ obsTick c →
      (obsTick c - tick) / pollMs < fuel →
      raceLoop T (some c) fuel tick = ⟨true, obsTick c⟩ := by
  intro fuel
  induction fuel with
  | zero =>
    intro tick _ _ hf
    exact absurd hf (Nat.not_lt_zero _)
  | succ n ih =>
    intro tick hmod hle hf
    unfold raceLoop
    rw [if_neg (show ¬ T ≤ tick by omega)]
    simp only [cancelObserved]
    by_cases hc : c ≤ tick
    · rw [if_pos (by simpa using hc)]
      have : tick = obsTick c := by
        simp only [pollMs, obsTick] at hmod hle ⊢
        omega
      rw [this]
    · rw [if_neg (by simpa using hc)]
      refine ih (tick + pollMs) (by simp only [pollMs] at hmod ⊢; omega) ?_ ?_
      · simp only [pollMs, obsTick] at hmod hle ⊢
        omega
      · simp only [pollMs, obsTick] at hmod hle hf ⊢
        omega

/-- C7: while Speaking, playback completion is raced against the
cancellation signal polled every 200 ms, and whichever resolves first
wins.  (1) If the signal is set at time `c` and its first observation
tick precedes natural completion, the loop exits cancelled at that tick
(strictly before `T`, i.e. without waiting for playback to finish),
playback is stopped, the status sequence is
speaking → canceled → listening, and the 500 ms settle delay is observed
before listening resumes.  (2) With no signal, the stage completes
naturally at `T` and goes straight back to listening. -/
theorem c7_cancellation_race :
    (∀ (T c : Nat), obsTick c < T →
      speakingStage T (some c) =
        ⟨["speaking", "canceled", "listening"], true, obsTick c + settleMs⟩ ∧
      (speakRace T (some c)).exitTime < T) ∧
    (∀ T : Nat, speakingStage T none = ⟨["speaking", "listening"], false, T⟩) := by
  constructor
  · intro T c h
    have hrace : speakRace T (some c) = ⟨true, obsTick c⟩ := by
      unfold speakRace
      refine raceLoop_cancel T c h _ 0 ?_ ?_ ?_
      · simp
      · exact Nat.zero_le _
      · simp only [pollMs, obsTick] at h ⊢
        omega
    constructor
    · simp [speakingStage, hrace]
    · rw [hrace]
      exact h
  · intro T
    simp [speakingStage, show speakRace T none = ⟨false, T⟩ from raceLoop_none T _ 0]

/-- C7 witness: signal set 150 ms into a 10 s playback — cancellation is
observed at the 200 ms tick and the stage finishes at 700 ms. -/
theorem c7_cancellation_race_witness :
    speakingStage 10000 (some 150) =
      ⟨["speaking", "canceled", "listening"], true, 700⟩ ∧
    (speakRace 10000 (some 150)).exitTime < 10000 :=
  c7_cancellation_race.1 10000 150 (by decide)

/-- When spawning and path resolution succeed, every shell-task
invocation produces a result string. -/
theorem runShellTask_total (cmd : List Char) (env : ToolEnv)
    (hr : ∀ c w, ∃ r, env.runShell c w = .ok r)
    (hc : ∀ p, ∃ q, env.canonicalize p = .ok q)
    (hd : ∃ d, env.currentDir = .ok d) :
    ∃ s, runShellTask cmd env = .ok s := by
  obtain ⟨d, hd⟩ := hd
  simp only [runShellTask, hd]
  by_cases h1 : trimChars cmd = []
  · rw [if_pos h1]
    exact ⟨_, rfl⟩
  rw [if_neg h1]
  by_cases h2 : isPrefixList "cd ".data (trimChars cmd) = true
  · rw [if_pos h2]
    by_cases habs : isAbsolutePath ((trimChars cmd).drop 3) = true
    · rw [if_pos habs]
      obtain ⟨q, hq⟩ := hc ((trimChars cmd).drop 3)
      simp only [hq]
      split
      · exact ⟨_, rfl⟩
      · exact ⟨_, rfl⟩
    · rw [if_neg habs]
      rcases henv : env.workingDirectory with _ | cwd
      · simp only [henv]
        obtain ⟨q, hq⟩ := hc (joinPath d ((trimChars cmd).drop 3))
        simp only [hq]
        split
        · exact ⟨_, rfl⟩
        · exact ⟨_, rfl⟩
      · simp only [henv]
        obtain ⟨q, hq⟩ := hc (joinPath cwd ((trimChars cmd).drop 3))
        simp only [hq]
        split
        · exact ⟨_, rfl⟩
        · exact ⟨_, rfl⟩
  · rw [if_neg h2]
    obtain ⟨r, hrr⟩ := hr (trimChars cmd) env.workingDirectory
    simp only [hrr]
    repeat' split
    all_goals exact ⟨_, rfl⟩

/-- When spawning succeeds, every Codex invocation produces a result
string. -/
theorem runCodexCli_total (instr : List Char) (env : ToolEnv)
    (hr : ∀ c w, ∃ r, env.runShell c w = .ok r) :
    ∃ s, runCodexCli instr env = .ok s := by
  simp only [runCodexCli]
  by_cases h1 : trimChars instr = []
  · rw [if_pos h1]
    exact ⟨_, rfl⟩
  rw [if_neg h1]
  obtain ⟨r, hrr⟩ := hr (codexFullCmd (trimChars instr)) env.workingDirectory
  simp only [hrr]
  repeat' split
  all_goals exact ⟨_, rfl⟩

/-- C1 amended: dispatch converts non-zero exit, empty output, a
non-directory `cd` target and the Codex timeout into result strings, but
it is total only when process spawning, `current_dir` and path
canonicalisation succeed — those failures propagate to the caller as
errors (via `?` in tools.rs 33, 35-36, 56, 118, 129 and agent.rs 177,
192, 196). -/
theorem c1_amended_dispatch_total (tc : ToolCall) (env : ToolEnv)
    (hr : ∀ c w, ∃ r, env.runShell c w = .ok r)
    (hc : ∀ p, ∃ q, env.canonicalize p = .ok q)
    (hd : ∃ d, env.currentDir = .ok d) :
    ∃ s, dispatch tc env = .ok s := by
  unfold dispatch
  by_cases hn : tc.name = "shell_task".data
  · rw [if_pos hn]
    obtain ⟨s, hs⟩ := runShellTask_total tc.command env hr hc hd
    exact ⟨_, by rw [hs]; rfl⟩
  rw [if_neg hn]
  by_cases hs2 : isSimpleShell tc.command = true
  · rw [if_pos hs2]
    obtain ⟨s, hs⟩ := runShellTask_total tc.command env hr hc hd
    exact ⟨_, by rw [hs]; rfl⟩
  · rw [if_neg hs2]
    exact runCodexCli_total tc.command env hr

/-- C1 witness: in the all-good environment, dispatching shell_task `ls`
yields a result string. -/
theorem c1_amended_witness :
    ∃ s, dispatch ⟨"shell_task".data, "ls".data⟩ goodEnv = .ok s :=
  c1_amended_dispatch_total ⟨"shell_task".data, "ls".data⟩ goodEnv
    (fun _ _ => ⟨_, rfl⟩) (fun _ => ⟨_, rfl⟩) ⟨_, rfl⟩

/-- C2 amended: only the Codex path enforces a wall-clock timeout — a
Codex process exceeding 60 s is killed and the fixed timed-out message
returned — while the shell-execution path waits for completion
unconditionally: its result is invariant under arbitrarily changing the
process duration. -/
theorem c2_amended_timeouts :
    (∀ (env : ToolEnv) (cmd : List Char) (out : ProcResult),
      trimChars cmd ≠ [] →
      env.runShell (codexFullCmd (trimChars cmd)) env.workingDirectory = .ok out →
      out.durationMs > codexTimeoutMs →
      runCodexCli cmd env = .ok codexTimedOutMsg) ∧
    (∀ (env : ToolEnv) (cmd : List Char) (dur : Nat),
      runShellTask cmd { env with
        runShell := fun c w => (env.runShell c w).map
          (fun r => { r with durationMs := dur }) } = runShellTask cmd env) := by
  constructor
  · intro env cmd out h1 h2 h3
    simp only [runCodexCli, if_neg h1, h2]
    rw [if_neg (by omega)]
  · intro env cmd dur
    simp only [runShellTask]
    rcases hrs : env.runShell (trimChars cmd) env.workingDirectory with e | out
    · simp [hrs, Except.map]
    · simp [hrs, Except.map]

/-- C2 witness: a Codex instruction whose process ran 70 s yields the
fixed timed-out message. -/
theorem c2_amended_timeouts_witness :
    runCodexCli "write a poem".data codexSlowEnv = .ok codexTimedOutMsg :=
  c2_amended_timeouts.1 codexSlowEnv "write a poem".data codexSlowOutput
    (by decide) rfl (by decide)

/-- A list with a non-empty left part is non-empty. -/
theorem ne_nil_append_left {a b : List Char} (h : a ≠ []) : a ++ b ≠ [] := by
  intro hab
  rcases List.append_eq_nil.mp hab with ⟨h1, -⟩
  exact h h1

/-- Every result string `run_shell_task` returns is non-empty. -/
theorem runShellTask_ok_ne_nil (cmd : List Char) (env : ToolEnv) (r : ShellResult)
    (h : runShellTask cmd env = .ok r) : r.message ≠ [] := by
  simp only [runShellTask] at h
  repeat' split at h
  all_goals try cases h
  all_goals first
    | assumption
    | decide
    | exact ne_nil_append_left (by decide)
    | exact ne_nil_append_left (ne_nil_append_left (by decide))
    | exact ne_nil_append_left (ne_nil_append_left (ne_nil_append_left (by decide)))

/-- Every result string `run_codex_cli` returns is non-empty. -/
theorem runCodexCli_ok_ne_nil (instr : List Char) (env : ToolEnv) (s : List Char)
    (h : runCodexCli instr env = .ok s) : s ≠ [] := by
  simp only [runCodexCli] at h
  repeat' split at h
  all_goals try cases h
  all_goals first
    | assumption
    | decide
    | exact ne_nil_append_left (by decide)
    | exact ne_nil_append_left (ne_nil_append_left (by decide))
    | exact ne_nil_append_left (ne_nil_append_left (ne_nil_append_left (by decide)))

/-- Every result string the tool router returns is non-empty. -/
theorem dispatch_ok_ne_nil (tc : ToolCall) (env : ToolEnv) (s : List Char)
    (h : dispatch tc env = .ok s) : s ≠ [] := by
  unfold dispatch at h
  split at h
  · rcases hrs : runShellTask tc.command env with e | r
    · rw [hrs] at h
      simp [Except.map] at h
    · rw [hrs] at h
      simp only [Except.map] at h
      cases h
      exact runShellTask_ok_ne_nil tc.command env r hrs
  · split at h
    · rcases hrs : runShellTask tc.command env with e | r
      · rw [hrs] at h
        simp [Except.map] at h
      · rw [hrs] at h
        simp only [Except.map] at h
        cases h
        exact runShellTask_ok_ne_nil tc.command env r hrs
    · exact runCodexCli_ok_ne_nil tc.command env s h

/-- A Speak outcome of the parse pipeline is one of the two fixed
substitute messages, or the cleaned text itself — in which case
extraction fell through on it, it passed the length guard, and its trim
is non-empty. -/
theorem parseReply_speak_cases (raw s : List Char) (h : parseReply raw = .speak s) :
    s = clarifyMsg ∨ s = didntCatchMsg ∨
      (extractTool s = none ∧
       ¬ (s.length > maxChars ∨ (splitWSChars s).length > maxWords) ∧
       trimChars s ≠ []) := by
  simp only [parseReply] at h
  split at h
  · cases h
  · split at h
    · cases h
    · split at h
      · cases h
        left
        rfl
      · split at h
        · cases h
          right
          left
          rfl
        · cases h
          right
          right
          refine ⟨by assumption, by assumption, by assumption⟩

/-- C6: whenever `handle_command` completes with a result (no panic, no
propagated error), the string handed to the speaking stage is non-empty:
the two substitute messages are non-empty, a surviving cleaned answer has
non-empty trim, and every tool-dispatch result is non-empty by
construction. -/
theorem c6_always_speaks (raw : List Char) (env : ToolEnv) (s : List Char)
    (h : handleReply raw env = .ok s) : s ≠ [] := by
  unfold handleReply at h
  split at h
  · cases h
  · rename_i tc heq
    split at h
    · cases h
    · rename_i s2 hdisp
      cases h
      exact dispatch_ok_ne_nil tc env s hdisp
  · rename_i t heq
    cases h
    rcases parseReply_speak_cases raw s heq with hcl | hdc | ⟨-, -, hne⟩
    · subst hcl
      decide
    · subst hdc
      decide
    · intro hnil
      exact hne (by rw [hnil]; rfl)

/-- C6 witness: the reply `hello` is spoken and is non-empty. -/
theorem c6_always_speaks_witness : "hello".data ≠ ([] : List Char) :=
  c6_always_speaks "hello".data goodEnv "hello".data (by decide)

/-- If a pattern with head `c` occurs in `s`, then `c` occurs in `s`. -/
theorem findSub_head_mem {c : Char} {p s : List Char} {i : Nat}
    (h : findSub (c :: p) s = some i) : c ∈ s := by
  induction s generalizing i with
  | nil => simp [findSub] at h
  | cons a rest ih =>
    simp only [findSub] at h
    split at h
    · rename_i hp
      have hca : c = a ∧ p <+: rest := by
        simpa [isPrefixList] using hp
      simp [hca.1]
    · rcases Option.map_eq_some'.mp h with ⟨j, hj, -⟩
      exact List.mem_cons_of_mem a (ih hj)

/-- A string free of a character contains no pattern headed by it. -/
theorem containsSub_false_of_not_mem {c : Char} {p s : List Char}
    (h : c ∉ s) : containsSub (c :: p) s = false := by
  cases hf : findSub (c :: p) s with
  | none => simp [containsSub, hf]
  | some i => exact absurd (findSub_head_mem hf) h

/-- The hidden-reasoning strip is the identity unless both markers occur. -/
theorem stripThink_id {s : List Char}
    (h : ¬ (containsSub thinkOpenTag s = true ∧ containsSub thinkCloseTag s = true)) :
    stripThink s = some s := by
  unfold stripThink
  cases ho : findSub thinkOpenTag s with
  | none => rfl
  | some a =>
    cases hc : findSub thinkCloseTag s with
    | none => rfl
    | some b =>
      exact absurd ⟨by simp [containsSub, ho], by simp [containsSub, hc]⟩ h

/-- Fence stripping is the identity on fence-free text. -/
theorem fenceStrip_id {s : List Char} (h : containsSub fenceTag s = false) :
    fenceStrip s = s := by
  simp [fenceStrip, h]

/-- Backtick removal is the identity on backtick-free text. -/
theorem backtickStrip_id {s : List Char} (h : s.contains btick = false) :
    backtickStrip s = s := by
  unfold backtickStrip
  rw [h]
  simp

/-- C8 amended: re-parsing a Speak output returns it unchanged provided
the output is already trimmed, does not contain both reasoning markers,
and contains no backtick; without those provisos re-parsing can change
the string (see the counterexample: backtick removal can expose
leading/trailing whitespace which the re-parse trims away). -/
theorem c8_amended_idempotent (raw s : List Char)
    (h : parseReply raw = .speak s)
    (h1 : trimChars s = s)
    (h2 : ¬ (containsSub thinkOpenTag s = true ∧ containsSub thinkCloseTag s = true))
    (h3 : s.contains btick = false) :
    parseReply s = .speak s := by
  rcases parseReply_speak_cases raw s h with hcl | hdc | ⟨hex, hlen, hne⟩
  · subst hcl
    decide
  · subst hdc
    decide
  · have hbn : btick ∉ s := by
      intro hm
      have hmem : s.contains btick = true := by simpa using hm
      rw [h3] at hmem
      cases hmem
    have hfence : containsSub fenceTag s = false := containsSub_false_of_not_mem hbn
    have hne2 : s ≠ [] := fun hnil => hne (by rw [hnil]; rfl)
    simp only [parseReply, h1, stripThink_id h2, fenceStrip_id hfence,
      backtickStrip_id h3, hex]
    rw [if_neg hlen, if_neg hne2]

/-- C8 witness: the already-clean reply `hello` re-parses to itself. -/
theorem c8_amended_idempotent_witness :
    parseReply "hello".data = .speak "hello".data :=
  c8_amended_idempotent "hello".data "hello".data (by decide) (by decide)
    (by decide) (by decide)

end Jarvis
